import Mathlib

/-!
Verification of the two crawler scripts of the repository
(crawler_caselaw.py and crawler_courtlistener.py).

Shallow embedding: the filesystem is a map from paths to byte lists, the
network is an environment mapping requests to responses, and a streamed
download body is an explicit list of events (delivered chunks, a read
error raised by the requests iterator, or an OS error raised by a file
write).  Strings are modelled as lists of characters.  The interactive
confirmation prompt, directory creation, progress printing and
command-line parsing are external collaborators and are not modelled.
-/

/-- Characters of a string literal; paths, URLs and response bodies are
modelled as lists of characters. -/
def str (s : String) : List Char := s.toList

/-- A filesystem: a map from paths to file contents (byte lists). -/
def FS : Type := List Char → Option (List Nat)

/-- The empty filesystem. -/
def fsEmpty : FS := fun _ => none

/-- Create or overwrite a file (open in wb mode plus the writes). -/
def fsSet (fs : FS) (p : List Char) (v : List Nat) : FS :=
  fun q => if q = p then some v else fs q

/-- Delete a file if present (os.remove guarded by os.path.exists). -/
def fsErase (fs : FS) (p : List Char) : FS :=
  fun q => if q = p then none else fs q

/-- One event of a streamed HTTP body: a delivered chunk, a read error
raised by the requests iterator (a requests.RequestException), or an OS
error raised by the file write (not a requests.RequestException). -/
inductive StreamEvent where
  | chunk (data : List Nat)
  | readErr
  | writeErr
deriving DecidableEq

/-- Response to a streaming GET: an exception at request time, or a
status code together with the stream of body events. -/
inductive DlResp where
  | netErr
  | resp (status : Nat) (events : List StreamEvent)
deriving DecidableEq

/-- Response.raise_for_status raises exactly for 4xx and 5xx codes. -/
def raiseStatus (s : Nat) : Bool := 400 ≤ s && s < 600

/-- Replay of the chunk loop: the bytes written so far, and whether the
loop finished (some true), hit a caught read error (some false), or hit
an uncaught write error (none). -/
def streamWrite : List Nat → List StreamEvent → List Nat × Option Bool
  | acc, [] => (acc, some true)
  | acc, .chunk d :: es => streamWrite (acc ++ d) es
  | acc, .readErr :: _ => (acc, some false)
  | acc, .writeErr :: _ => (acc, none)

/-- Result of one download call: a normal return carrying the updated
filesystem and the returned boolean, or an uncaught exception escaping
the call (the filesystem is left as it was at the raise point). -/
inductive DlOut where
  | ret (fs : FS) (ok : Bool)
  | crash (fs : FS)

def DlOut.fs : DlOut → FS
  | .ret f _ => f
  | .crash f => f

def DlOut.retOk : DlOut → Option Bool
  | .ret _ b => some b
  | .crash _ => none

def DlOut.isCrash : DlOut → Bool
  | .ret _ _ => false
  | .crash _ => true

/-- Listing response for the tree host: a request failure, or a status
code plus the href attributes of the anchors in document order. -/
inductive PageResp where
  | err
  | ok (status : Nat) (hrefs : List (List Char))
deriving DecidableEq

/-- Environment of the tree-host crawler: listing pages per URL, href
resolution (urljoin, an external library function), and the streamed
download response per URL. -/
structure CaseEnv where
  page : List Char → PageResp
  resolve : List Char → List Char → List Char
  dl : List Char → DlResp

/-- CaseLawCrawler.get_page_links: on a request error or a raising
status the except branch logs and returns no links (the boolean records
that the error branch ran); otherwise every anchor href is resolved
against the page URL, preserving document order. -/
def get_page_links (env : CaseEnv) (url : List Char) : List (List Char) × Bool :=
  match env.page url with
  | .err => ([], true)
  | .ok s hrefs =>
    if raiseStatus s then ([], true)
    else (hrefs.map (fun h => env.resolve url h), false)

/-- Python split on the slash character: consecutive separators produce
empty parts, and the empty string splits to one empty part. -/
def splitSlash : List Char → List (List Char)
  | [] => [[]]
  | c :: rest =>
    match splitSlash rest with
    | [] => [[]]
    | s :: ss => if c = '/' then [] :: s :: ss else (c :: s) :: ss

/-- Python rstrip of trailing slashes. -/
def rstripSlash (l : List Char) : List Char :=
  (l.reverse.dropWhile (fun c => c = '/')).reverse

/-- Reporter-name derivation in get_reporter_directories: strip trailing
slashes, split on slashes, take the last part. -/
def derivedName (link : List Char) : List Char :=
  (splitSlash (rstripSlash link)).getLastD []

/-- The filtering loop of CaseLawCrawler.get_reporter_directories:
keep links ending in a slash and different from the base URL, derive the
name, and keep the pair when the name is non-empty and does not end in
.json. -/
def reporterScan (base : List Char) : List (List Char) → List (List Char × List Char)
  | [] => []
  | link :: rest =>
    if (str "/").isSuffixOf link && link != base then
      if derivedName link != [] && !((str ".json").isSuffixOf (derivedName link)) then
        (derivedName link, link) :: reporterScan base rest
      else reporterScan base rest
    else reporterScan base rest

/-- CaseLawCrawler.get_reporter_directories. -/
def get_reporter_directories (env : CaseEnv) (base : List Char) :
    List (List Char × List Char) :=
  reporterScan base (get_page_links env base).1

/-- CaseLawCrawler.get_tar_files: links ending in .tar, in order. -/
def get_tar_files (env : CaseEnv) (url : List Char) : List (List Char) :=
  (get_page_links env url).1.filter (fun l => (str ".tar").isSuffixOf l)

/-- CaseLawCrawler.download_file: no existence check; opens the
destination in wb mode, streams chunks, and on a caught
requests.RequestException removes the destination if present and
returns False.  An OS write error is not caught and escapes.  The
second component is the list of URLs requested. -/
def caselaw_download_file (env : CaseEnv) (url outPath : List Char) (fs : FS) :
    DlOut × List (List Char) :=
  match env.dl url with
  | .netErr => (.ret (fsErase fs outPath) false, [url])
  | .resp s events =>
    if raiseStatus s then (.ret (fsErase fs outPath) false, [url])
    else
      match streamWrite [] events with
      | (w, some true) => (.ret (fsSet fs outPath w) true, [url])
      | (w, some false) => (.ret (fsErase (fsSet fs outPath w) outPath) false, [url])
      | (w, none) => (.crash (fsSet fs outPath w), [url])

/-- The per-run counters of CaseLawCrawler. -/
structure Counters where
  downloaded : Nat
  skipped : Nat
  failed : Nat
deriving DecidableEq

/-- Result of the tree-host orchestration: a normal completion or an
uncaught exception, each carrying the filesystem and the counters. -/
inductive CrawlRes where
  | ok (fs : FS) (c : Counters)
  | crash (fs : FS) (c : Counters)

def CrawlRes.fs : CrawlRes → FS
  | .ok f _ => f
  | .crash f _ => f

def CrawlRes.counters : CrawlRes → Counters
  | .ok _ c => c
  | .crash _ c => c

def CrawlRes.isOk : CrawlRes → Bool
  | .ok _ _ => true
  | .crash _ _ => false

/-- The inner loop of CaseLawCrawler.crawl_and_download over the tar
files of one reporter: skip when the destination exists, otherwise
download and count. -/
def processTars (env : CaseEnv) (reporterDir : List Char) :
    List (List Char) → FS → Counters → CrawlRes
  | [], fs, c => .ok fs c
  | tarUrl :: rest, fs, c =>
    let outPath := reporterDir ++ '/' :: (splitSlash tarUrl).getLastD []
    if (fs outPath).isSome then
      processTars env reporterDir rest fs { c with skipped := c.skipped + 1 }
    else
      match caselaw_download_file env tarUrl outPath fs with
      | (.ret fs' true, _) =>
        processTars env reporterDir rest fs' { c with downloaded := c.downloaded + 1 }
      | (.ret fs' false, _) =>
        processTars env reporterDir rest fs' { c with failed := c.failed + 1 }
      | (.crash fs', _) => .crash fs' c

/-- The outer loop of CaseLawCrawler.crawl_and_download over reporters
(directory creation is an external no-op in the model). -/
def processReporters (env : CaseEnv) (outputDir : List Char) :
    List (List Char × List Char) → FS → Counters → CrawlRes
  | [], fs, c => .ok fs c
  | (name, url) :: rest, fs, c =>
    match processTars env (outputDir ++ '/' :: name) (get_tar_files env url) fs c with
    | .ok fs' c' => processReporters env outputDir rest fs' c'
    | .crash fs' c' => .crash fs' c'

/-- The limit_reporters slice; a limit of zero is falsy in Python and
leaves the list whole. -/
def applyLimit (limit : Option Nat) (reporters : List (List Char × List Char)) :
    List (List Char × List Char) :=
  match limit with
  | none => reporters
  | some n => if n = 0 then reporters else reporters.take n

/-- CaseLawCrawler.crawl_and_download. -/
def crawl_and_download (env : CaseEnv) (base outputDir : List Char)
    (limit : Option Nat) (fs : FS) : CrawlRes :=
  let reporters := get_reporter_directories env base
  if reporters.isEmpty then .ok fs ⟨0, 0, 0⟩
  else processReporters env outputDir (applyLimit limit reporters) fs ⟨0, 0, 0⟩

/-- A download response that contains no OS write error. -/
def RespNoWE : DlResp → Prop
  | .netErr => True
  | .resp _ events => StreamEvent.writeErr ∉ events

/-- A tree-host environment whose download responses never contain an
OS write error. -/
def CaseNoWE (env : CaseEnv) : Prop := ∀ u, RespNoWE (env.dl u)

/-- The opening tag of the key pattern of crawler_courtlistener.py. -/
def keyOpen : List Char := ['<', 'K', 'e', 'y', '>']

/-- The closing tag of the key pattern. -/
def keyClose : List Char := ['<', '/', 'K', 'e', 'y', '>']

/-- A well-formed key tag occurrence. -/
def keyTag (k : List Char) : List Char := keyOpen ++ k ++ keyClose

/-- Fuel-driven replay of re.findall over the key pattern: at each
position, a match requires the opening tag, then one or more characters
other than an opening angle bracket (the capture), then the closing
tag; scanning resumes after a match, or one character further after a
failed attempt. -/
def findKeysF : Nat → List Char → List (List Char)
  | 0, _ => []
  | _ + 1, [] => []
  | fuel + 1, c :: rest =>
    if keyOpen.isPrefixOf (c :: rest) then
      let content := ((c :: rest).drop 5).takeWhile (fun ch => ch != '<')
      let rest2 := ((c :: rest).drop 5).dropWhile (fun ch => ch != '<')
      if content != [] && keyClose.isPrefixOf rest2 then
        content :: findKeysF fuel (rest2.drop 6)
      else findKeysF fuel rest
    else findKeysF fuel rest

/-- re.findall of the key pattern over a response body. -/
def findKeys (l : List Char) : List (List Char) := findKeysF l.length l

/-- The .bz2 filter applied to extracted keys. -/
def bz2Filter (keys : List (List Char)) : List (List Char) :=
  keys.filter (fun k => (str ".bz2").isSuffixOf k)

/-- A glue string in which no position starts the opening key tag. -/
def cleanGlue : List Char → Bool
  | [] => true
  | c :: rest => !(keyOpen.isPrefixOf (c :: rest)) && cleanGlue rest

/-- A response body built from interleaved glue and key tags: the glue,
then for each item its key tag followed by the next glue piece. -/
def renderListing : List Char → List (List Char × List Char) → List Char
  | g, [] => g
  | g, (k, g') :: rest => g ++ (keyTag k ++ renderListing g' rest)

/-- A request of the object-store script: a listing GET (the boolean
records whether the prefix query parameter dictionary was passed) or a
streamed file GET. -/
inductive ClReq where
  | listing (url : List Char) (params : Bool)
  | download (url : List Char)
deriving DecidableEq

/-- A plain-text HTTP response: request failure, or status and body. -/
inductive TextResp where
  | err
  | ok (status : Nat) (text : List Char)
deriving DecidableEq

/-- Environment of the object-store script: listing responses per
(url, params) request, and streamed download responses per URL. -/
structure ClEnv where
  http : List Char → Bool → TextResp
  dl : List Char → DlResp

/-- The list.html URL of crawler_courtlistener.py main. -/
def clListUrl : List Char :=
  str "https://com-courtlistener-storage.s3-us-west-2.amazonaws.com/list.html?prefix=bulk-data/"

/-- The storage.courtlistener.com base URL of main. -/
def clStorageUrl : List Char := str "https://storage.courtlistener.com/bulk-data/"

/-- The direct S3 base URL of main. -/
def clS3Base : List Char := str "https://com-courtlistener-storage.s3-us-west-2.amazonaws.com/"

/-- The fixed output directory of the object-store script. -/
def clOutDir : List Char := str "courtlistener_downloads"

/-- get_s3_bucket_listing: GET with the prefix parameter, None on a
request error or raising status, otherwise the keys of the body
filtered to .bz2.  The second component is the request log. -/
def get_s3_bucket_listing (env : ClEnv) (bucketUrl : List Char) :
    Option (List (List Char)) × List ClReq :=
  match env.http bucketUrl true with
  | .err => (none, [.listing bucketUrl true])
  | .ok s text =>
    if raiseStatus s then (none, [.listing bucketUrl true])
    else (some (bz2Filter (findKeys text)), [.listing bucketUrl true])

/-- The literal BUCKET_NAME of the bucket regex. -/
def bucketLit : List Char := ['B', 'U', 'C', 'K', 'E', 'T', '_', 'N', 'A', 'M', 'E']

/-- The single-quote character. -/
def sqc : Char := Char.ofNat 39

/-- The double-quote character. -/
def dqc : Char := Char.ofNat 34

/-- Python regex whitespace. -/
def pyIsSpace (c : Char) : Bool :=
  c == ' ' || c == '\t' || c == '\n' || c == '\r' || c == Char.ofNat 11 || c == Char.ofNat 12

/-- One match attempt of the bucket-name regex at a position: the
literal, optional whitespace, an equals sign, optional whitespace, a
quote, one or more non-quote characters (the capture), and a quote. -/
def tryBucketAt (l : List Char) : Option (List Char) :=
  if bucketLit.isPrefixOf l then
    match (l.drop 11).dropWhile pyIsSpace with
    | '=' :: r2 =>
      match r2.dropWhile pyIsSpace with
      | q :: r4 =>
        if q == sqc || q == dqc then
          let content := r4.takeWhile (fun ch => !(ch == sqc || ch == dqc))
          let r5 := r4.dropWhile (fun ch => !(ch == sqc || ch == dqc))
          if content != [] && r5 != [] then some content else none
        else none
      | [] => none
    | _ => none
  else none

/-- re.search of the bucket-name regex: first matching position wins. -/
def searchBucket : List Char → Option (List Char)
  | [] => none
  | c :: rest =>
    match tryBucketAt (c :: rest) with
    | some b => some b
    | none => searchBucket rest

/-- get_files_from_html_listing: GET the list.html page, extract the
bucket name, and on success call get_s3_bucket_listing on the derived
bucket API URL. -/
def get_files_from_html_listing (env : ClEnv) :
    Option (List (List Char)) × List ClReq :=
  match env.http clListUrl false with
  | .err => (none, [.listing clListUrl false])
  | .ok s text =>
    if raiseStatus s then (none, [.listing clListUrl false])
    else
      match searchBucket text with
      | some b =>
        let r := get_s3_bucket_listing env
          (str "https://" ++ b ++ str ".s3-us-west-2.amazonaws.com/")
        (r.1, .listing clListUrl false :: r.2)
      | none => (none, [.listing clListUrl false])

/-- The first alternate endpoint shape. -/
def altE1 : List Char := clS3Base ++ str "?list-type=2&prefix=bulk-data/"

/-- The second alternate endpoint shape. -/
def altE2 : List Char := clS3Base ++ str "?prefix=bulk-data/"

/-- The third alternate endpoint shape. -/
def altE3 : List Char := clS3Base ++ str "?delimiter=/&prefix=bulk-data/"

/-- The loop of get_files_alternative_method: GET each endpoint in
order; an exception or a status other than 200 moves on; a 200 body
whose filtered key set is non-empty is returned at once. -/
def altLoop (env : ClEnv) : List (List Char) → Option (List (List Char)) × List ClReq
  | [] => (none, [])
  | u :: rest =>
    match env.http u false with
    | .err =>
      let r := altLoop env rest
      (r.1, .listing u false :: r.2)
    | .ok s text =>
      if s = 200 then
        if (bz2Filter (findKeys text)).isEmpty then
          let r := altLoop env rest
          (r.1, .listing u false :: r.2)
        else (some (bz2Filter (findKeys text)), [.listing u false])
      else
        let r := altLoop env rest
        (r.1, .listing u false :: r.2)

/-- get_files_alternative_method over the fixed endpoint list. -/
def get_files_alternative_method (env : ClEnv) :
    Option (List (List Char)) × List ClReq :=
  altLoop env [altE1, altE2, altE3]

/-- Python falsiness of the discovery result: None or an empty list. -/
def optEmpty : Option (List (List Char)) → Bool
  | none => true
  | some [] => true
  | some (_ :: _) => false

/-- The discovery fallback chain of main: the HTML listing method, then
the alternate endpoints, then the storage base URL, each tried only
when every earlier result was falsy. -/
def discoverFiles (env : ClEnv) : Option (List (List Char)) × List ClReq :=
  let m1 := get_files_from_html_listing env
  if optEmpty m1.1 then
    let m2 := get_files_alternative_method env
    if optEmpty m2.1 then
      let m3 := get_s3_bucket_listing env clStorageUrl
      (m3.1, m1.2 ++ (m2.2 ++ m3.2))
    else (m2.1, m1.2 ++ m2.2)
  else m1

/-- os.path.basename: the part after the last slash. -/
def basenameL (f : List Char) : List Char :=
  (f.reverse.takeWhile (fun c => c != '/')).reverse

/-- download_file of crawler_courtlistener.py: URL is the base
concatenated with the key, destination is the basename joined to the
output directory; an existing destination short-circuits to True with
no request; otherwise the streamed download runs as in the tree-host
variant. -/
def cl_download_file (env : ClEnv) (filename baseUrl outputDir : List Char)
    (fs : FS) : DlOut × List ClReq :=
  let url := baseUrl ++ filename
  let filepath := outputDir ++ '/' :: basenameL filename
  if (fs filepath).isSome then (.ret fs true, [])
  else
    match env.dl url with
    | .netErr => (.ret (fsErase fs filepath) false, [.download url])
    | .resp s events =>
      if raiseStatus s then (.ret (fsErase fs filepath) false, [.download url])
      else
        match streamWrite [] events with
        | (w, some true) => (.ret (fsSet fs filepath w) true, [.download url])
        | (w, some false) =>
          (.ret (fsErase (fsSet fs filepath w) filepath) false, [.download url])
        | (w, none) => (.crash (fsSet fs filepath w), [.download url])

/-- State of the object-store download loop: filesystem, the successful
and failed counters, and the accumulated request log. -/
structure ClState where
  fs : FS
  succ : Nat
  fail : Nat
  log : List ClReq

/-- Result of the object-store loop: normal completion or an uncaught
exception. -/
inductive ClRun where
  | ok (s : ClState)
  | crash (s : ClState)

def ClRun.state : ClRun → ClState
  | .ok s => s
  | .crash s => s

def ClRun.isOk : ClRun → Bool
  | .ok _ => true
  | .crash _ => false

/-- The download loop of main: every file is fetched through
download_file with the fixed S3 base URL and the fixed output
directory; True increments successful, False increments failed. -/
def clRunLoop (env : ClEnv) : List (List Char) → ClState → ClRun
  | [], st => .ok st
  | f :: rest, st =>
    match cl_download_file env f clS3Base clOutDir st.fs with
    | (.ret fs' true, reqs) => clRunLoop env rest ⟨fs', st.succ + 1, st.fail, st.log ++ reqs⟩
    | (.ret fs' false, reqs) => clRunLoop env rest ⟨fs', st.succ, st.fail + 1, st.log ++ reqs⟩
    | (.crash fs', reqs) => .crash ⟨fs', st.succ, st.fail, st.log ++ reqs⟩

/-- main of crawler_courtlistener.py after the confirmation prompt is
accepted: discovery, exit on a falsy result (modelled as none), then
the download loop.  The second component is the discovery request
log. -/
def clMain (env : ClEnv) (fs0 : FS) : Option ClRun × List ClReq :=
  let d := discoverFiles env
  match d.1 with
  | none => (none, d.2)
  | some [] => (none, d.2)
  | some (f :: rest) => (some (clRunLoop env (f :: rest) ⟨fs0, 0, 0, []⟩), d.2)

/-- An object-store environment whose download responses never contain
an OS write error. -/
def ClNoWE (env : ClEnv) : Prop := ∀ u, RespNoWE (env.dl u)

/-- An alternative-endpoint attempt that yields no keys: vacuously so
on a request error, otherwise a status other than 200 or an empty
filtered key set. -/
def altFail (env : ClEnv) (u : List Char) : Prop :=
  ∀ s text, env.http u false = .ok s text → s = 200 → bz2Filter (findKeys text) = []

/-- Modelled from the spec sentence for listReporters (retain directory
links other than the root, derive the name from the final non-empty
path segment, exclude metadata names), with the additional exclusion of
links whose derived name is empty; to be compared with the implemented
filter. -/
def listReporters_spec (links : List (List Char)) (root : List Char) :
    List (List Char × List Char) :=
  (links.filter (fun l =>
      (str "/").isSuffixOf l && l != root &&
      (derivedName l != [] && !((str ".json").isSuffixOf (derivedName l))))).map
    (fun l => (derivedName l, l))

/-- The claim C5 filter exactly as stated: directory links other than
the root, excluding only those whose derived name ends in .json. -/
def listReporters_claim (links : List (List Char)) (root : List Char) :
    List (List Char × List Char) :=
  (links.filter (fun l =>
      (str "/").isSuffixOf l && l != root &&
      !((str ".json").isSuffixOf (derivedName l)))).map
    (fun l => (derivedName l, l))


/-- Environment of the C1 counterexample: a successful one-chunk
response for every URL. -/
def envC1 : CaseEnv := ⟨fun _ => .err, fun _ h => h, fun _ => .resp 200 [.chunk [2]]⟩

/-- Object-store environment for the C1 witness. -/
def envC1wA : ClEnv := ⟨fun _ _ => .err, fun _ => .netErr⟩

/-- Tree-host environment for the C1 witness. -/
def envC1wB : CaseEnv := ⟨fun _ => .err, fun _ h => h, fun _ => .netErr⟩

/-- Second object-store environment for the C1 witness. -/
def envC1wC : ClEnv := ⟨fun _ _ => .err, fun _ => .netErr⟩

/-- A filesystem with one pre-existing file, for the C1 witness. -/
def fsC1w : FS := fsSet fsEmpty (str "dd/x.bz2") [5]

/-- Environment of the C2 counterexample: one chunk is written, then an
OS write error is raised. -/
def envC2 : CaseEnv := ⟨fun _ => .err, fun _ h => h, fun _ => .resp 200 [.chunk [7], .writeErr]⟩

/-- Tree-host environment for the C2 witness: a read error right after
the body opens. -/
def envC2wA : CaseEnv := ⟨fun _ => .err, fun _ h => h, fun _ => .resp 200 [.readErr]⟩

/-- Object-store environment for the C2 witness. -/
def envC2wB : ClEnv := ⟨fun _ _ => .err, fun _ => .resp 200 [.chunk [1], .readErr]⟩

/-- Environment for the C3 witness: the HTML listing request fails, the
first alternate endpoint fails, the second alternate endpoint returns
one key. -/
def envC3w : ClEnv :=
  ⟨fun u p => if p = false ∧ u = altE2 then .ok 200 (str "<Key>a.bz2</Key>") else .err,
   fun _ => .netErr⟩

/-- Glue piece for the C4 witness. -/
def glueC4 : List Char := str "<R><X>q</X>"

/-- Items for the C4 witness: one .bz2 key and one other key. -/
def itemsC4 : List (List Char × List Char) :=
  [(str "bulk-data/a.bz2", str "<n>1</n>"), (str "b.txt", str "")]

/-- Environment for the C4 witness. -/
def envC4w : ClEnv :=
  ⟨fun u p => if p = true ∧ u = clStorageUrl then .ok 200 (renderListing glueC4 itemsC4)
     else .err,
   fun _ => .netErr⟩

/-- Environment of the C5 counterexample: the root page lists one bare
slash link. -/
def envC5 : CaseEnv :=
  ⟨fun u => if u = str "r/" then .ok 200 [str "/"] else .err, fun _ h => h, fun _ => .netErr⟩

/-- Environment of the C6 scenario: one reporter with two archives; the
first download succeeds, the second hits a read error mid-stream. -/
def envC6 : CaseEnv :=
  ⟨fun u => if u = str "https://s/" then .ok 200 [str "https://s/r/"]
     else if u = str "https://s/r/" then .ok 200 [str "https://s/r/a.tar", str "https://s/r/b.tar"]
     else .err,
   fun _ h => h,
   fun u => if u = str "https://s/r/a.tar" then .resp 200 [.chunk [1]]
     else if u = str "https://s/r/b.tar" then .resp 200 [.chunk [2], .readErr]
     else .netErr⟩

/-- Environment of the C7 counterexample: every page request returns a
303 status with one anchor. -/
def envC7 : CaseEnv := ⟨fun _ => .ok 303 [str "h"], fun _ h => h, fun _ => .netErr⟩

/-- Environment for the C7 witness: one URL errors, the others return a
404 status. -/
def envC7w : CaseEnv :=
  ⟨fun u => if u = str "e" then .err else .ok 404 [str "x"], fun _ h => h, fun _ => .netErr⟩

/-- Environment of the C8 counterexample: one reporter, one archive,
and a download stream that raises an OS write error. -/
def envC8 : CaseEnv :=
  ⟨fun u => if u = str "https://s/" then .ok 200 [str "https://s/r/"]
     else if u = str "https://s/r/" then .ok 200 [str "https://s/r/a.tar"]
     else .err,
   fun _ h => h,
   fun _ => .resp 200 [.writeErr]⟩

/-- Tree-host environment for the C8 witness. -/
def envC8wA : CaseEnv := ⟨fun _ => .err, fun _ h => h, fun _ => .netErr⟩

/-- Object-store environment for the C8 witness: discovery succeeds via
the first alternate endpoint, the downloads fail with caught request
errors. -/
def envC8wB : ClEnv := ⟨fun _ _ => .ok 200 (str "<Key>a.bz2</Key>"), fun _ => .netErr⟩

/-- Environment for the C9 witness. -/
def envC9w : ClEnv := ⟨fun _ _ => .err, fun _ => .netErr⟩

/-- A filesystem in which the destination of the C9 witness key already
exists. -/
def fsC9w : FS := fsSet fsEmpty (str "courtlistener_downloads/x.bz2") []

/-- Loop state for the C9 witness. -/
def stC9w : ClState := ⟨fsC9w, 0, 0, []⟩

/-- Environment for the C10 witness: only the storage base endpoint
(discovery method three) yields a key. -/
def envC10w : ClEnv :=
  ⟨fun u p => if p = true ∧ u = clStorageUrl then .ok 200 (str "<Key>bulk-data/x.bz2</Key>")
     else .err,
   fun _ => .netErr⟩

/-! Helper lemmas about the filesystem model. -/

theorem fsSet_same (fs : FS) (p : List Char) (v : List Nat) : fsSet fs p v p = some v := by
  simp [fsSet]

theorem fsSet_other (fs : FS) (p q : List Char) (v : List Nat) (h : q ≠ p) :
    fsSet fs p v q = fs q := by
  simp [fsSet, h]

theorem fsErase_same (fs : FS) (p : List Char) : fsErase fs p p = none := by
  simp [fsErase]

theorem fsErase_other (fs : FS) (p q : List Char) (h : q ≠ p) : fsErase fs p q = fs q := by
  simp [fsErase, h]

/-! Helper lemmas about list scanning, used for the key extraction. -/

theorem lengthDropWhileLe (p : Char → Bool) :
    ∀ l : List Char, (l.dropWhile p).length ≤ l.length := by
  intro l
  induction l with
  | nil => simp
  | cons x xs ih =>
    rw [List.dropWhile_cons]
    split
    · exact Nat.le_trans ih (by simp)
    · simp

theorem takeWhile_all_append (p : Char → Bool) (t : List Char) :
    ∀ l : List Char, (∀ a ∈ l, p a = true) →
      (l ++ t).takeWhile p = l ++ t.takeWhile p := by
  intro l
  induction l with
  | nil => simp
  | cons x xs ih =>
    intro h
    simp only [List.cons_append, List.takeWhile_cons, h x (by simp)]
    simp [ih (fun a ha => h a (by simp [ha]))]

theorem dropWhile_all_append (p : Char → Bool) (t : List Char) :
    ∀ l : List Char, (∀ a ∈ l, p a = true) →
      (l ++ t).dropWhile p = t.dropWhile p := by
  intro l
  induction l with
  | nil => simp
  | cons x xs ih =>
    intro h
    simp only [List.cons_append, List.dropWhile_cons, h x (by simp)]
    simp [ih (fun a ha => h a (by simp [ha]))]

/-- One-step unfolding of the key scanner. -/
theorem findKeysF_succ (fuel : Nat) (c : Char) (rest : List Char) :
    findKeysF (fuel + 1) (c :: rest) =
      if keyOpen.isPrefixOf (c :: rest) then
        if (((c :: rest).drop 5).takeWhile (fun ch => ch != '<')) != [] &&
            keyClose.isPrefixOf (((c :: rest).drop 5).dropWhile (fun ch => ch != '<')) then
          (((c :: rest).drop 5).takeWhile (fun ch => ch != '<')) ::
            findKeysF fuel ((((c :: rest).drop 5).dropWhile (fun ch => ch != '<')).drop 6)
        else findKeysF fuel rest
      else findKeysF fuel rest := rfl

/-- The scanner result does not depend on the fuel, as long as the fuel
covers the input length. -/
theorem findKeysF_congr : ∀ (f1 : Nat) (l : List Char) (f2 : Nat),
    l.length ≤ f1 → l.length ≤ f2 → findKeysF f1 l = findKeysF f2 l := by
  intro f1
  induction f1 with
  | zero =>
    intro l f2 h1 _
    have hl : l = [] := List.length_eq_zero.mp (Nat.le_zero.mp h1)
    subst hl
    cases f2 <;> rfl
  | succ n ih =>
    intro l f2 h1 h2
    cases l with
    | nil => cases f2 <;> rfl
    | cons c rest =>
      cases f2 with
      | zero => exact absurd h2 (by simp)
      | succ m =>
        have hr1 : rest.length ≤ n := by simp at h1; omega
        have hr2 : rest.length ≤ m := by simp at h2; omega
        rw [findKeysF_succ n c rest, findKeysF_succ m c rest]
        by_cases hp : keyOpen.isPrefixOf (c :: rest) = true
        · rw [if_pos hp, if_pos hp]
          by_cases hc : ((((c :: rest).drop 5).takeWhile (fun ch => ch != '<')) != [] &&
              keyClose.isPrefixOf (((c :: rest).drop 5).dropWhile (fun ch => ch != '<'))) = true
          · rw [if_pos hc, if_pos hc]
            have hb : ((((c :: rest).drop 5).dropWhile (fun ch => ch != '<')).drop 6).length
                ≤ rest.length := by
              have hA := lengthDropWhileLe (fun ch => ch != '<') ((c :: rest).drop 5)
              have hB : ((c :: rest).drop 5).length = rest.length - 4 := by
                rw [List.length_drop]; simp
              rw [List.length_drop]
              omega
            rw [ih ((((c :: rest).drop 5).dropWhile (fun ch => ch != '<')).drop 6) m
              (Nat.le_trans hb hr1) (Nat.le_trans hb hr2)]
          · rw [if_neg hc, if_neg hc]
            exact ih rest m hr1 hr2
        · rw [if_neg hp, if_neg hp]
          exact ih rest m hr1 hr2

/-- A failed position is skipped by the scanner. -/
theorem findKeys_cons_not (c : Char) (rest : List Char)
    (h : keyOpen.isPrefixOf (c :: rest) = false) :
    findKeys (c :: rest) = findKeys rest := by
  unfold findKeys
  rw [show (c :: rest).length = rest.length + 1 from rfl]
  rw [findKeysF_succ]
  simp [h]

/-- A well-formed tag occurrence is matched whole: the capture is the
key, and scanning resumes right after the closing tag. -/
theorem findKeys_tag (k t : List Char) (hk : k ≠ []) (hlt : ∀ c ∈ k, c ≠ '<') :
    findKeys (keyTag k ++ t) = k :: findKeys t := by
  have h1 : keyTag k ++ t = '<' :: 'K' :: 'e' :: 'y' :: '>' :: ((k ++ keyClose) ++ t) := by
    simp [keyTag, keyOpen, keyClose, List.append_assoc]
  rw [h1]
  unfold findKeys
  rw [show ('<' :: 'K' :: 'e' :: 'y' :: '>' :: ((k ++ keyClose) ++ t)).length =
      ((k ++ keyClose) ++ t).length + 1 + 1 + 1 + 1 + 1 from rfl]
  rw [findKeysF_succ]
  have hp : keyOpen.isPrefixOf
      ('<' :: 'K' :: 'e' :: 'y' :: '>' :: ((k ++ keyClose) ++ t)) = true := by
    simp [keyOpen, List.isPrefixOf]
  rw [if_pos hp]
  rw [show ('<' :: 'K' :: 'e' :: 'y' :: '>' :: ((k ++ keyClose) ++ t)).drop 5 =
      (k ++ keyClose) ++ t from rfl]
  rw [List.append_assoc]
  have hmem : ∀ a ∈ k, (fun ch => ch != '<') a = true := by
    intro a ha
    simpa using hlt a ha
  rw [takeWhile_all_append (fun ch => ch != '<') (keyClose ++ t) k hmem]
  rw [dropWhile_all_append (fun ch => ch != '<') (keyClose ++ t) k hmem]
  rw [show (keyClose ++ t).takeWhile (fun ch => ch != '<') = [] from rfl]
  rw [show (keyClose ++ t).dropWhile (fun ch => ch != '<') = keyClose ++ t from rfl]
  have hkne : (k ++ [] != []) = true := by
    cases k with
    | nil => exact absurd rfl hk
    | cons a as => rfl
  have hcp : keyClose.isPrefixOf (keyClose ++ t) = true := by
    simp [keyClose, List.isPrefixOf]
  rw [hkne, hcp]
  rw [show (true && true) = true from rfl]
  rw [if_pos rfl]
  rw [show (keyClose ++ t).drop 6 = t from rfl]
  rw [List.append_nil]
  congr 1
  exact findKeysF_congr _ t t.length (by simp [List.length_append]; omega) (Nat.le_refl _)

/-- Appending a continuation that is empty or starts a fresh key tag
cannot create an opening-tag match at the head of a clean piece. -/
theorem keyOpen_not_prefix_append (l t : List Char) (hne : l ≠ [])
    (hl : keyOpen.isPrefixOf l = false)
    (ht : t = [] ∨ keyOpen.isPrefixOf t = true) :
    keyOpen.isPrefixOf (l ++ t) = false := by
  rcases ht with ht | ht
  · subst ht; simpa using hl
  · rcases t with _ | ⟨a, t1⟩
    · simp [keyOpen, List.isPrefixOf] at ht
    · have ha : a = '<' := by
        simp [keyOpen, List.isPrefixOf] at ht
        exact ht.1.symm
      subst ha
      rcases l with _ | ⟨c1, _ | ⟨c2, _ | ⟨c3, _ | ⟨c4, _ | ⟨c5, l5⟩⟩⟩⟩⟩
      · exact absurd rfl hne
      · simp [keyOpen, List.isPrefixOf]
      · simp [keyOpen, List.isPrefixOf]
      · simp [keyOpen, List.isPrefixOf]
      · simp [keyOpen, List.isPrefixOf]
      · simp only [keyOpen, List.isPrefixOf, List.cons_append] at hl ⊢
        simpa using by simpa using hl

/-- The scanner walks through a clean glue piece without matching. -/
theorem findKeys_append_clean : ∀ (g t : List Char), cleanGlue g = true →
    (t = [] ∨ keyOpen.isPrefixOf t = true) → findKeys (g ++ t) = findKeys t := by
  intro g
  induction g with
  | nil => intro t _ _; rfl
  | cons c g' ih =>
    intro t hg ht
    have hg' : keyOpen.isPrefixOf (c :: g') = false ∧ cleanGlue g' = true := by
      simpa [cleanGlue] using hg
    have h2 := keyOpen_not_prefix_append (c :: g') t (by simp) hg'.1 ht
    calc findKeys ((c :: g') ++ t) = findKeys (c :: (g' ++ t)) := rfl
      _ = findKeys (g' ++ t) := findKeys_cons_not c (g' ++ t) (by simpa using h2)
      _ = findKeys t := ih t hg'.2 ht

/-- Key extraction over a rendered listing: exactly the item keys, in
document order. -/
theorem findKeys_render : ∀ (items : List (List Char × List Char)) (g : List Char),
    cleanGlue g = true →
    (∀ p ∈ items, p.1 ≠ [] ∧ (∀ c ∈ p.1, c ≠ '<') ∧ cleanGlue p.2 = true) →
    findKeys (renderListing g items) = items.map Prod.fst := by
  intro items
  induction items with
  | nil =>
    intro g hg _
    have h := findKeys_append_clean g [] hg (Or.inl rfl)
    rw [List.append_nil] at h
    exact h.trans rfl
  | cons p rest ih =>
    intro g hg hitems
    obtain ⟨k, g'⟩ := p
    have hp := hitems (k, g') (by simp)
    have hstart : keyOpen.isPrefixOf (keyTag k ++ renderListing g' rest) = true := by
      simp [keyTag, keyOpen, List.isPrefixOf, List.append_assoc]
    rw [show renderListing g ((k, g') :: rest) = g ++ (keyTag k ++ renderListing g' rest)
      from rfl]
    rw [findKeys_append_clean g _ hg (Or.inr hstart)]
    rw [findKeys_tag k _ hp.1 hp.2.1]
    rw [ih g' hp.2.2 (fun q hq => hitems q (by simp [hq]))]
    simp

/-! Frame lemmas: a download call touches no path other than its own
destination, and the loops touch no pre-existing path. -/

theorem caselaw_dl_frame (env : CaseEnv) (u p : List Char) (fs : FS) (q : List Char)
    (h : q ≠ p) : ((caselaw_download_file env u p fs).1).fs q = fs q := by
  rcases henv : env.dl u with _ | ⟨s, events⟩
  · simp [caselaw_download_file, henv, DlOut.fs, fsErase, h]
  · rcases hsw : streamWrite [] events with ⟨w, ob⟩
    by_cases hs : raiseStatus s = true
    · simp [caselaw_download_file, henv, hs, DlOut.fs, fsErase, h]
    · rcases ob with _ | b
      · simp [caselaw_download_file, henv, hs, hsw, DlOut.fs, fsSet, h]
      · cases b
        · simp [caselaw_download_file, henv, hs, hsw, DlOut.fs, fsErase, fsSet, h]
        · simp [caselaw_download_file, henv, hs, hsw, DlOut.fs, fsSet, h]

theorem processTars_frame (env : CaseEnv) (dir : List Char) :
    ∀ (tars : List (List Char)) (fs : FS) (c : Counters) (q : List Char),
      fs q ≠ none → (processTars env dir tars fs c).fs q = fs q := by
  intro tars
  induction tars with
  | nil => intro fs c q h; rfl
  | cons tarUrl rest ih =>
    intro fs c q h
    simp only [processTars]
    by_cases hex : (fs (dir ++ '/' :: (splitSlash tarUrl).getLastD [])).isSome = true
    · rw [if_pos hex]
      exact ih fs _ q h
    · rw [if_neg hex]
      have hq : q ≠ dir ++ '/' :: (splitSlash tarUrl).getLastD [] := by
        intro e
        rw [e] at h
        exact h (Option.not_isSome_iff_eq_none.mp hex)
      have hfr0 := caselaw_dl_frame env tarUrl
        (dir ++ '/' :: (splitSlash tarUrl).getLastD []) fs q hq
      rcases hdl : caselaw_download_file env tarUrl
          (dir ++ '/' :: (splitSlash tarUrl).getLastD []) fs with ⟨out, reqs⟩
      rw [hdl] at hfr0
      cases out with
      | ret fs' b =>
        simp only [DlOut.fs] at hfr0
        cases b
        · show (processTars env dir rest fs' ⟨c.downloaded, c.skipped, c.failed + 1⟩).fs q = fs q
          rw [ih fs' _ q (by rw [hfr0]; exact h)]
          exact hfr0
        · show (processTars env dir rest fs' ⟨c.downloaded + 1, c.skipped, c.failed⟩).fs q = fs q
          rw [ih fs' _ q (by rw [hfr0]; exact h)]
          exact hfr0
      | crash fs' =>
        simp only [DlOut.fs] at hfr0
        show (CrawlRes.crash fs' c).fs q = fs q
        simpa [CrawlRes.fs] using hfr0

theorem processReporters_frame (env : CaseEnv) (outDir : List Char) :
    ∀ (reps : List (List Char × List Char)) (fs : FS) (c : Counters) (q : List Char),
      fs q ≠ none → (processReporters env outDir reps fs c).fs q = fs q := by
  intro reps
  induction reps with
  | nil => intro fs c q h; rfl
  | cons r rest ih =>
    intro fs c q h
    obtain ⟨name, url⟩ := r
    simp only [processReporters]
    have hfr0 := processTars_frame env (outDir ++ '/' :: name)
      (get_tar_files env url) fs c q h
    rcases hp : processTars env (outDir ++ '/' :: name) (get_tar_files env url) fs c
      with ⟨fs', c'⟩ | ⟨fs', c'⟩
    · rw [hp] at hfr0
      simp only [CrawlRes.fs] at hfr0
      show (processReporters env outDir rest fs' c').fs q = fs q
      rw [ih fs' c' q (by rw [hfr0]; exact h)]
      exact hfr0
    · rw [hp] at hfr0
      simp only [CrawlRes.fs] at hfr0
      show (CrawlRes.crash fs' c').fs q = fs q
      simpa [CrawlRes.fs] using hfr0

theorem crawl_frame (env : CaseEnv) (base outDir : List Char) (limit : Option Nat)
    (fs : FS) (q : List Char) (h : fs q ≠ none) :
    (crawl_and_download env base outDir limit fs).fs q = fs q := by
  simp only [crawl_and_download]
  split
  · rfl
  · exact processReporters_frame env outDir _ fs ⟨0, 0, 0⟩ q h

theorem cl_dl_frame (env : ClEnv) (f b d : List Char) (fs : FS) (q : List Char)
    (h : fs q ≠ none) : ((cl_download_file env f b d fs).1).fs q = fs q := by
  by_cases hex : (fs (d ++ '/' :: basenameL f)).isSome = true
  · simp [cl_download_file, hex, DlOut.fs]
  · have hq : q ≠ d ++ '/' :: basenameL f := by
      intro e
      rw [e] at h
      exact h (Option.not_isSome_iff_eq_none.mp hex)
    rcases henv : env.dl (b ++ f) with _ | ⟨s, events⟩
    · simp [cl_download_file, hex, henv, DlOut.fs, fsErase, hq]
    · rcases hsw : streamWrite [] events with ⟨w, ob⟩
      by_cases hs : raiseStatus s = true
      · simp [cl_download_file, hex, henv, hs, DlOut.fs, fsErase, hq]
      · rcases ob with _ | b'
        · simp [cl_download_file, hex, henv, hs, hsw, DlOut.fs, fsSet, hq]
        · cases b'
          · simp [cl_download_file, hex, henv, hs, hsw, DlOut.fs, fsErase, fsSet, hq]
          · simp [cl_download_file, hex, henv, hs, hsw, DlOut.fs, fsSet, hq]

theorem clRunLoop_frame (env : ClEnv) :
    ∀ (files : List (List Char)) (st : ClState) (q : List Char),
      st.fs q ≠ none → ((clRunLoop env files st).state).fs q = st.fs q := by
  intro files
  induction files with
  | nil => intro st q h; rfl
  | cons f rest ih =>
    intro st q h
    simp only [clRunLoop]
    have hfr0 := cl_dl_frame env f clS3Base clOutDir st.fs q h
    rcases hdl : cl_download_file env f clS3Base clOutDir st.fs with ⟨out, reqs⟩
    rw [hdl] at hfr0
    cases out with
    | ret fs' b =>
      simp only [DlOut.fs] at hfr0
      cases b
      · show ((clRunLoop env rest ⟨fs', st.succ, st.fail + 1, st.log ++ reqs⟩).state).fs q
          = st.fs q
        rw [ih ⟨fs', st.succ, st.fail + 1, st.log ++ reqs⟩ q
          (by show fs' q ≠ none; rw [hfr0]; exact h)]
        exact hfr0
      · show ((clRunLoop env rest ⟨fs', st.succ + 1, st.fail, st.log ++ reqs⟩).state).fs q
          = st.fs q
        rw [ih ⟨fs', st.succ + 1, st.fail, st.log ++ reqs⟩ q
          (by show fs' q ≠ none; rw [hfr0]; exact h)]
        exact hfr0
    | crash fs' =>
      simp only [DlOut.fs] at hfr0
      show ((ClRun.crash ⟨fs', st.succ, st.fail, st.log ++ reqs⟩).state).fs q = st.fs q
      simpa [ClRun.state] using hfr0

/-! Crash analysis: the only source of an uncaught exception is an OS
write error in a download stream. -/

theorem streamWrite_noWE : ∀ (events : List StreamEvent) (acc : List Nat),
    StreamEvent.writeErr ∉ events → (streamWrite acc events).2 ≠ none := by
  intro events
  induction events with
  | nil => intro acc _; simp [streamWrite]
  | cons e rest ih =>
    intro acc h
    cases e with
    | chunk d =>
      show (streamWrite (acc ++ d) rest).2 ≠ none
      exact ih (acc ++ d) (fun hm => h (List.mem_cons_of_mem _ hm))
    | readErr => simp [streamWrite]
    | writeErr => exact absurd (List.mem_cons_self _ _) h

theorem caselaw_dl_noCrash (env : CaseEnv) (u p : List Char) (fs : FS)
    (h : RespNoWE (env.dl u)) :
    ((caselaw_download_file env u p fs).1).isCrash = false := by
  rcases henv : env.dl u with _ | ⟨s, events⟩
  · simp [caselaw_download_file, henv, DlOut.isCrash]
  · rw [henv] at h
    have hne := streamWrite_noWE events [] h
    rcases hsw : streamWrite [] events with ⟨w, ob⟩
    rw [hsw] at hne
    by_cases hs : raiseStatus s = true
    · simp [caselaw_download_file, henv, hs, DlOut.isCrash]
    · rcases ob with _ | b
      · exact absurd rfl hne
      · cases b
        · simp [caselaw_download_file, henv, hs, hsw, DlOut.isCrash]
        · simp [caselaw_download_file, henv, hs, hsw, DlOut.isCrash]

theorem cl_dl_noCrash (env : ClEnv) (f b d : List Char) (fs : FS)
    (h : RespNoWE (env.dl (b ++ f))) :
    ((cl_download_file env f b d fs).1).isCrash = false := by
  by_cases hex : (fs (d ++ '/' :: basenameL f)).isSome = true
  · simp [cl_download_file, hex, DlOut.isCrash]
  · rcases henv : env.dl (b ++ f) with _ | ⟨s, events⟩
    · simp [cl_download_file, hex, henv, DlOut.isCrash]
    · rw [henv] at h
      have hne := streamWrite_noWE events [] h
      rcases hsw : streamWrite [] events with ⟨w, ob⟩
      rw [hsw] at hne
      by_cases hs : raiseStatus s = true
      · simp [cl_download_file, hex, henv, hs, DlOut.isCrash]
      · rcases ob with _ | b'
        · exact absurd rfl hne
        · cases b'
          · simp [cl_download_file, hex, henv, hs, hsw, DlOut.isCrash]
          · simp [cl_download_file, hex, henv, hs, hsw, DlOut.isCrash]

theorem processTars_ok (env : CaseEnv) (dir : List Char) (hw : CaseNoWE env) :
    ∀ (tars : List (List Char)) (fs : FS) (c : Counters),
      (processTars env dir tars fs c).isOk = true := by
  intro tars
  induction tars with
  | nil => intro fs c; rfl
  | cons tarUrl rest ih =>
    intro fs c
    simp only [processTars]
    by_cases hex : (fs (dir ++ '/' :: (splitSlash tarUrl).getLastD [])).isSome = true
    · rw [if_pos hex]
      exact ih fs _
    · rw [if_neg hex]
      have hnc := caselaw_dl_noCrash env tarUrl
        (dir ++ '/' :: (splitSlash tarUrl).getLastD []) fs (hw tarUrl)
      rcases hdl : caselaw_download_file env tarUrl
          (dir ++ '/' :: (splitSlash tarUrl).getLastD []) fs with ⟨out, reqs⟩
      rw [hdl] at hnc
      cases out with
      | ret fs' b =>
        cases b
        · exact ih fs' _
        · exact ih fs' _
      | crash fs' => simp [DlOut.isCrash] at hnc

theorem processReporters_ok (env : CaseEnv) (outDir : List Char) (hw : CaseNoWE env) :
    ∀ (reps : List (List Char × List Char)) (fs : FS) (c : Counters),
      (processReporters env outDir reps fs c).isOk = true := by
  intro reps
  induction reps with
  | nil => intro fs c; rfl
  | cons r rest ih =>
    intro fs c
    obtain ⟨name, url⟩ := r
    simp only [processReporters]
    have hok := processTars_ok env (outDir ++ '/' :: name) hw (get_tar_files env url) fs c
    rcases hp : processTars env (outDir ++ '/' :: name) (get_tar_files env url) fs c
      with ⟨fs', c'⟩ | ⟨fs', c'⟩
    · exact ih fs' c'
    · rw [hp] at hok
      simp [CrawlRes.isOk] at hok

theorem crawl_ok_noWE (env : CaseEnv) (base outDir : List Char) (limit : Option Nat)
    (fs : FS) (hw : CaseNoWE env) :
    (crawl_and_download env base outDir limit fs).isOk = true := by
  simp only [crawl_and_download]
  split
  · rfl
  · exact processReporters_ok env outDir hw _ fs ⟨0, 0, 0⟩

theorem clRunLoop_ok_noWE (env : ClEnv) (hw : ClNoWE env) :
    ∀ (files : List (List Char)) (st : ClState), (clRunLoop env files st).isOk = true := by
  intro files
  induction files with
  | nil => intro st; rfl
  | cons f rest ih =>
    intro st
    simp only [clRunLoop]
    have hnc := cl_dl_noCrash env f clS3Base clOutDir st.fs (hw (clS3Base ++ f))
    rcases hdl : cl_download_file env f clS3Base clOutDir st.fs with ⟨out, reqs⟩
    rw [hdl] at hnc
    cases out with
    | ret fs' b =>
      cases b
      · exact ih _
      · exact ih _
    | crash fs' => simp [DlOut.isCrash] at hnc

theorem clMain_ok_noWE (env : ClEnv) (fs0 : FS) (run : ClRun) (hw : ClNoWE env)
    (h : (clMain env fs0).1 = some run) : run.isOk = true := by
  simp only [clMain] at h
  rcases hd : (discoverFiles env).1 with _ | files
  · simp only [hd] at h
    exact Option.noConfusion h
  · rcases files with _ | ⟨f, rest⟩
    · simp only [hd] at h
      exact Option.noConfusion h
    · simp only [hd] at h
      rw [← Option.some.inj h]
      exact clRunLoop_ok_noWE env hw (f :: rest) ⟨fs0, 0, 0, []⟩

/-! Request-log analysis of the object-store loop. -/

theorem cl_dl_log_shape (env : ClEnv) (f b d : List Char) (fs : FS) :
    (cl_download_file env f b d fs).2 = [] ∨
    (cl_download_file env f b d fs).2 = [ClReq.download (b ++ f)] := by
  by_cases hex : (fs (d ++ '/' :: basenameL f)).isSome = true
  · left; simp [cl_download_file, hex]
  · rcases henv : env.dl (b ++ f) with _ | ⟨s, events⟩
    · right; simp [cl_download_file, hex, henv]
    · rcases hsw : streamWrite [] events with ⟨w, ob⟩
      by_cases hs : raiseStatus s = true
      · right; simp [cl_download_file, hex, henv, hs]
      · rcases ob with _ | b'
        · right; simp [cl_download_file, hex, henv, hs, hsw]
        · cases b'
          · right; simp [cl_download_file, hex, henv, hs, hsw]
          · right; simp [cl_download_file, hex, henv, hs, hsw]

theorem clRunLoop_log_sound (env : ClEnv) :
    ∀ (files : List (List Char)) (st : ClState) (u : List Char),
      ClReq.download u ∈ ((clRunLoop env files st).state).log →
      (∃ f, f ∈ files ∧ u = clS3Base ++ f) ∨ ClReq.download u ∈ st.log := by
  intro files
  induction files with
  | nil => intro st u h; exact Or.inr h
  | cons f rest ih =>
    intro st u h
    simp only [clRunLoop] at h
    have hshape := cl_dl_log_shape env f clS3Base clOutDir st.fs
    rcases hdl : cl_download_file env f clS3Base clOutDir st.fs with ⟨out, reqs⟩
    rw [hdl] at h hshape
    have hreqs : reqs = [] ∨ reqs = [ClReq.download (clS3Base ++ f)] := hshape
    have hsplit : ClReq.download u ∈ st.log ++ reqs →
        (∃ g, g ∈ f :: rest ∧ u = clS3Base ++ g) ∨ ClReq.download u ∈ st.log := by
      intro hin
      rcases List.mem_append.mp hin with h1 | h2
      · exact Or.inr h1
      · rcases hreqs with he | he
        · rw [he] at h2
          exact absurd h2 (List.not_mem_nil _)
        · rw [he] at h2
          have heq := List.mem_singleton.mp h2
          have hu : u = clS3Base ++ f := by
            injection heq
          exact Or.inl ⟨f, List.mem_cons_self f rest, hu⟩
    cases out with
    | ret fs' b =>
      cases b
      · rcases ih ⟨fs', st.succ, st.fail + 1, st.log ++ reqs⟩ u h with ⟨g, hg, hu⟩ | hin
        · exact Or.inl ⟨g, List.mem_cons_of_mem f hg, hu⟩
        · exact hsplit hin
      · rcases ih ⟨fs', st.succ + 1, st.fail, st.log ++ reqs⟩ u h with ⟨g, hg, hu⟩ | hin
        · exact Or.inl ⟨g, List.mem_cons_of_mem f hg, hu⟩
        · exact hsplit hin
    | crash fs' =>
      exact hsplit h

/-! Discovery-chain analysis. -/

theorem altLoop_step_fail (env : ClEnv) (u : List Char) (rest : List (List Char))
    (h : altFail env u) :
    altLoop env (u :: rest)
      = ((altLoop env rest).1, ClReq.listing u false :: (altLoop env rest).2) := by
  rcases he : env.http u false with _ | ⟨s, t⟩
  · simp [altLoop, he]
  · by_cases hs : s = 200
    · subst hs
      have hk := h 200 t he rfl
      simp [altLoop, he, hk]
    · simp [altLoop, he, hs]

theorem altLoop_step_hit (env : ClEnv) (u : List Char) (rest : List (List Char))
    (text : List Char) (ks : List (List Char)) (he : env.http u false = .ok 200 text)
    (hk : bz2Filter (findKeys text) = ks) (hne : ks ≠ []) :
    altLoop env (u :: rest) = (some ks, [ClReq.listing u false]) := by
  have hempty : (bz2Filter (findKeys text)).isEmpty = false := by
    rw [hk]
    cases ks with
    | nil => exact absurd rfl hne
    | cons a as => rfl
  simp [altLoop, he, hempty, hk]
  intro h
  exact absurd h hne

/-- The request log of get_s3_bucket_listing is the single listing
request, whatever the response. -/
theorem s3_listing_log (env : ClEnv) (u : List Char) :
    (get_s3_bucket_listing env u).2 = [ClReq.listing u true] := by
  rcases h : env.http u true with _ | ⟨s, t⟩
  · simp [get_s3_bucket_listing, h]
  · by_cases hs : raiseStatus s = true
    · simp [get_s3_bucket_listing, h, hs]
    · simp [get_s3_bucket_listing, h, hs]

theorem m1_log_shape (env : ClEnv) :
    (get_files_from_html_listing env).2 = [ClReq.listing clListUrl false] ∨
    ∃ b, (get_files_from_html_listing env).2 =
      [ClReq.listing clListUrl false,
       ClReq.listing (str "https://" ++ b ++ str ".s3-us-west-2.amazonaws.com/") true] := by
  rcases h : env.http clListUrl false with _ | ⟨s, text⟩
  · left; simp [get_files_from_html_listing, h]
  · by_cases hs : raiseStatus s = true
    · left; simp [get_files_from_html_listing, h, hs]
    · rcases hb : searchBucket text with _ | b
      · left; simp [get_files_from_html_listing, h, hs, hb]
      · right
        refine ⟨b, ?_⟩
        simp [get_files_from_html_listing, h, hs, hb, s3_listing_log]

theorem derived_ne_storage (b : List Char) :
    str "https://" ++ b ++ str ".s3-us-west-2.amazonaws.com/" ≠ clStorageUrl := by
  intro h
  have h2 := congrArg List.reverse h
  rw [List.reverse_append, List.reverse_append] at h2
  have h4 : ((str ".s3-us-west-2.amazonaws.com/").reverse ++ b.reverse
      ++ (str "https://").reverse)[1]? = some 'm' := rfl
  rw [List.append_assoc] at h4
  rw [h2] at h4
  have h5 : (clStorageUrl.reverse)[1]? = some 'a' := rfl
  rw [h5] at h4
  exact absurd h4 (by decide)

/-- The implemented reporter filter equals the specified filter with
the empty-name exclusion. -/
theorem reporterScan_eq_spec (base : List Char) :
    ∀ links : List (List Char), reporterScan base links = listReporters_spec links base := by
  intro links
  induction links with
  | nil => rfl
  | cons link rest ih =>
    by_cases h1 : ((str "/").isSuffixOf link && link != base) = true
    · by_cases h2 : (derivedName link != []
          && !((str ".json").isSuffixOf (derivedName link))) = true
      · simp [reporterScan, listReporters_spec, List.filter_cons, h1, h2, ih]
      · simp [reporterScan, listReporters_spec, List.filter_cons, h1, h2, ih]
    · simp [reporterScan, listReporters_spec, List.filter_cons, h1, ih]

/-! The claims. -/

/-- C1 counterexample: CaseLawCrawler.download_file invoked on an
existing destination issues the network request and overwrites the
file, against the claim that in both variants a pre-existing
destination short-circuits to Success with no request and is left
unmodified. -/
theorem C1_counterexample :
    ((caselaw_download_file envC1 (str "u") (str "p") (fsSet fsEmpty (str "p") [1])).1).fs
        (str "p") = some [2] ∧
    ((caselaw_download_file envC1 (str "u") (str "p") (fsSet fsEmpty (str "p") [1])).1).retOk
        = some true ∧
    (caselaw_download_file envC1 (str "u") (str "p") (fsSet fsEmpty (str "p") [1])).2
        = [str "u"] := by
  refine ⟨?_, ?_, ?_⟩ <;> decide

/-- C1 (amended): the object-store download_file short-circuits to
Success with no request when the destination exists, and neither
orchestration loop ever modifies a pre-existing path; in the tree-host
variant the existence check lives in the orchestration loop, not in
download_file itself. -/
theorem C1_amended :
    (∀ (env : ClEnv) (f b d : List Char) (fs : FS),
        (fs (d ++ '/' :: basenameL f)).isSome = true →
        cl_download_file env f b d fs = (.ret fs true, [])) ∧
    (∀ (env : CaseEnv) (base outDir : List Char) (limit : Option Nat) (fs : FS)
        (q : List Char), fs q ≠ none →
        (crawl_and_download env base outDir limit fs).fs q = fs q) ∧
    (∀ (env : ClEnv) (files : List (List Char)) (st : ClState) (q : List Char),
        st.fs q ≠ none → ((clRunLoop env files st).state).fs q = st.fs q) := by
  refine ⟨?_, ?_, ?_⟩
  · intro env f b d fs h
    simp [cl_download_file, h]
  · intro env base outDir limit fs q h
    exact crawl_frame env base outDir limit fs q h
  · intro env files st q h
    exact clRunLoop_frame env files st q h

/-- C1 witness: the amended statement applied at concrete inputs. -/
theorem C1_witness :
    (fsC1w (str "dd/x.bz2")).isSome = true ∧
    cl_download_file envC1wA (str "x.bz2") (str "bb") (str "dd") fsC1w
      = (.ret fsC1w true, []) ∧
    (crawl_and_download envC1wB (str "b") (str "o") none fsC1w).fs (str "dd/x.bz2")
      = fsC1w (str "dd/x.bz2") ∧
    ((clRunLoop envC1wC [str "k.bz2"] ⟨fsC1w, 0, 0, []⟩).state).fs (str "dd/x.bz2")
      = fsC1w (str "dd/x.bz2") :=
  ⟨by decide,
   C1_amended.1 envC1wA (str "x.bz2") (str "bb") (str "dd") fsC1w (by decide),
   C1_amended.2.1 envC1wB (str "b") (str "o") none fsC1w (str "dd/x.bz2") (by decide),
   C1_amended.2.2 envC1wC [str "k.bz2"] ⟨fsC1w, 0, 0, []⟩ (str "dd/x.bz2") (by decide)⟩

/-- C2 counterexample: a mid-stream OS write error is not caught; the
download call crashes instead of returning Failure, and the partially
written destination file is left on disk. -/
theorem C2_counterexample :
    ((caselaw_download_file envC2 (str "u") (str "p") fsEmpty).1).isCrash = true ∧
    ((caselaw_download_file envC2 (str "u") (str "p") fsEmpty).1).fs (str "p")
      = some [7] := by
  exact ⟨by decide, by decide⟩

/-- C2 (amended): for a transfer interrupted by a requests-level read
error after the body opened, both download functions delete the partial
destination file and return Failure, so the destination path does not
exist afterwards; OS write errors are outside this guarantee. -/
theorem C2_amended :
    (∀ (env : CaseEnv) (u p : List Char) (fs : FS) (s : Nat)
        (events : List StreamEvent) (w : List Nat),
        env.dl u = .resp s events → raiseStatus s = false →
        streamWrite [] events = (w, some false) →
        ((caselaw_download_file env u p fs).1).retOk = some false ∧
        ((caselaw_download_file env u p fs).1).fs p = none ∧
        (caselaw_download_file env u p fs).2 = [u]) ∧
    (∀ (env : ClEnv) (f b d : List Char) (fs : FS) (s : Nat)
        (events : List StreamEvent) (w : List Nat),
        (fs (d ++ '/' :: basenameL f)).isSome = false →
        env.dl (b ++ f) = .resp s events → raiseStatus s = false →
        streamWrite [] events = (w, some false) →
        ((cl_download_file env f b d fs).1).retOk = some false ∧
        ((cl_download_file env f b d fs).1).fs (d ++ '/' :: basenameL f) = none ∧
        (cl_download_file env f b d fs).2 = [ClReq.download (b ++ f)]) := by
  constructor
  · intro env u p fs s events w henv hs hsw
    have hres : caselaw_download_file env u p fs
        = (.ret (fsErase (fsSet fs p w) p) false, [u]) := by
      simp [caselaw_download_file, henv, hs, hsw]
    refine ⟨?_, ?_, ?_⟩
    · rw [hres]
      rfl
    · rw [hres]
      simp [DlOut.fs, fsErase]
    · rw [hres]
  · intro env f b d fs s events w hex henv hs hsw
    have hres : cl_download_file env f b d fs
        = (.ret (fsErase (fsSet fs (d ++ '/' :: basenameL f) w) (d ++ '/' :: basenameL f))
            false, [.download (b ++ f)]) := by
      simp [cl_download_file, hex, henv, hs, hsw]
    refine ⟨?_, ?_, ?_⟩
    · rw [hres]
      rfl
    · rw [hres]
      simp [DlOut.fs, fsErase]
    · rw [hres]

/-- C2 witness: the amended statement applied at concrete inputs. -/
theorem C2_witness :
    streamWrite [] [StreamEvent.readErr] = ([], some false) ∧
    ((caselaw_download_file envC2wA (str "u") (str "p") fsEmpty).1).fs (str "p") = none ∧
    ((cl_download_file envC2wB (str "f.bz2") clS3Base clOutDir fsEmpty).1).retOk
      = some false :=
  ⟨rfl,
   (C2_amended.1 envC2wA (str "u") (str "p") fsEmpty 200 [StreamEvent.readErr] []
     rfl (by decide) rfl).2.1,
   (C2_amended.2 envC2wB (str "f.bz2") clS3Base clOutDir fsEmpty 200
     [StreamEvent.chunk [1], StreamEvent.readErr] [1] (by decide) rfl (by decide) rfl).1⟩

/-- C3: with the HTML-listing method falsy and the first alternate
endpoint yielding no keys, a non-empty key set from the second
alternate endpoint is the final discovery result; the third alternate
endpoint and the storage base endpoint are not queried. -/
theorem C3_fallback (env : ClEnv) (text : List Char) (ks : List (List Char))
    (h1 : optEmpty (get_files_from_html_listing env).1 = true)
    (h2 : altFail env altE1)
    (h3 : env.http altE2 false = .ok 200 text)
    (h4 : bz2Filter (findKeys text) = ks)
    (h5 : ks ≠ []) :
    (discoverFiles env).1 = some ks ∧
    (discoverFiles env).2 = (get_files_from_html_listing env).2
      ++ [ClReq.listing altE1 false, ClReq.listing altE2 false] ∧
    ClReq.listing altE3 false ∉ (discoverFiles env).2 ∧
    ClReq.listing clStorageUrl true ∉ (discoverFiles env).2 := by
  have hm2 : get_files_alternative_method env
      = (some ks, [ClReq.listing altE1 false, ClReq.listing altE2 false]) := by
    rw [show get_files_alternative_method env = altLoop env [altE1, altE2, altE3] from rfl]
    rw [altLoop_step_fail env altE1 [altE2, altE3] h2]
    rw [altLoop_step_hit env altE2 [altE3] text ks h3 h4 h5]
  have hne : optEmpty (some ks) = false := by
    cases ks with
    | nil => exact absurd rfl h5
    | cons a as => rfl
  have hd : discoverFiles env
      = (some ks, (get_files_from_html_listing env).2
          ++ [ClReq.listing altE1 false, ClReq.listing altE2 false]) := by
    simp only [discoverFiles]
    rw [if_pos h1, hm2]
    simp [hne]
  have hnotm1 : ∀ r, r = ClReq.listing altE3 false ∨ r = ClReq.listing clStorageUrl true →
      r ∉ (get_files_from_html_listing env).2 := by
    intro r hr hmem
    rcases m1_log_shape env with hsh | ⟨b, hsh⟩
    · rw [hsh] at hmem
      have heq := List.mem_singleton.mp hmem
      rcases hr with rfl | rfl
      · exact absurd heq (by decide)
      · exact absurd heq (by decide)
    · rw [hsh] at hmem
      rcases List.mem_cons.mp hmem with heq | hmem2
      · rcases hr with rfl | rfl
        · exact absurd heq (by decide)
        · exact absurd heq (by decide)
      · have heq := List.mem_singleton.mp hmem2
        rcases hr with rfl | rfl
        · injection heq with hurl hp
          exact Bool.noConfusion hp
        · injection heq with hurl hp
          exact derived_ne_storage b hurl.symm
  refine ⟨by rw [hd], by rw [hd], ?_, ?_⟩
  · rw [hd]
    intro hmem
    rcases List.mem_append.mp hmem with hA | hB
    · exact hnotm1 _ (Or.inl rfl) hA
    · rcases List.mem_cons.mp hB with heq | hB2
      · exact absurd heq (by decide)
      · exact absurd (List.mem_singleton.mp hB2) (by decide)
  · rw [hd]
    intro hmem
    rcases List.mem_append.mp hmem with hA | hB
    · exact hnotm1 _ (Or.inr rfl) hA
    · rcases List.mem_cons.mp hB with heq | hB2
      · exact absurd heq (by decide)
      · exact absurd (List.mem_singleton.mp hB2) (by decide)

/-- C3 witness: the fallback statement applied to a concrete
environment in which the HTML method errors, the first alternate
endpoint errors, and the second alternate endpoint returns one key. -/
theorem C3_witness :
    optEmpty (get_files_from_html_listing envC3w).1 = true ∧
    (discoverFiles envC3w).1 = some [str "a.bz2"] ∧
    ClReq.listing altE3 false ∉ (discoverFiles envC3w).2 := by
  have hfail : altFail envC3w altE1 := by
    intro s text hx
    rw [show envC3w.http altE1 false = .err from by decide] at hx
    exact TextResp.noConfusion hx
  have h := C3_fallback envC3w (str "<Key>a.bz2</Key>") [str "a.bz2"]
    (by decide) hfail (by decide) (by decide) (by decide)
  exact ⟨by decide, h.1, h.2.2.1⟩

/-- C4: over a response body made of clean glue pieces and well-formed
key tags, the key extraction yields exactly the item keys in document
order, and get_s3_bucket_listing returns exactly those ending in .bz2,
in document order. -/
theorem C4_extraction (env : ClEnv) (bucketUrl g : List Char)
    (items : List (List Char × List Char)) (s : Nat)
    (henv : env.http bucketUrl true = .ok s (renderListing g items))
    (hs : raiseStatus s = false)
    (hg : cleanGlue g = true)
    (hitems : ∀ p ∈ items, p.1 ≠ [] ∧ (∀ c ∈ p.1, c ≠ '<') ∧ cleanGlue p.2 = true) :
    findKeys (renderListing g items) = items.map Prod.fst ∧
    (get_s3_bucket_listing env bucketUrl).1
      = some (bz2Filter (items.map Prod.fst)) := by
  have hfk := findKeys_render items g hg hitems
  refine ⟨hfk, ?_⟩
  simp [get_s3_bucket_listing, henv, hs, hfk]

/-- C4 witness: the extraction statement applied to a concrete body
with two keys, of which one ends in .bz2. -/
theorem C4_witness :
    cleanGlue glueC4 = true ∧
    (get_s3_bucket_listing envC4w clStorageUrl).1
      = some (bz2Filter (itemsC4.map Prod.fst)) :=
  ⟨by decide,
   (C4_extraction envC4w clStorageUrl glueC4 itemsC4 200 (by decide)
     (by decide) (by decide) (by decide)).2⟩

/-- C5 counterexample: a directory-marker link with no non-empty path
segment is excluded by the implementation although the claim as stated
retains it. -/
theorem C5_counterexample :
    get_reporter_directories envC5 (str "r/") = [] ∧
    listReporters_claim (get_page_links envC5 (str "r/")).1 (str "r/")
      = [([], str "/")] := by
  exact ⟨by decide, by decide⟩

/-- C5 (amended): get_reporter_directories returns exactly the
directory-marker links other than the root, excluding both those whose
derived name ends in .json and those whose derived name is empty, each
paired with its derived name, in document order. -/
theorem C5_amended (env : CaseEnv) (base : List Char) :
    get_reporter_directories env base
      = listReporters_spec (get_page_links env base).1 base :=
  reporterScan_eq_spec base (get_page_links env base).1

/-- C6: the end-to-end tree-host scenario: one reporter with archives
a.tar and b.tar over an empty output directory; the first download
succeeds and the second fails mid-stream; the counters come out as one
downloaded, zero skipped, one failed; a.tar exists and b.tar does
not. -/
theorem C6_end_to_end :
    (crawl_and_download envC6 (str "https://s/") (str "out") none fsEmpty).counters
      = ⟨1, 0, 1⟩ ∧
    (crawl_and_download envC6 (str "https://s/") (str "out") none fsEmpty).fs
      (str "out/r/a.tar") = some [1] ∧
    (crawl_and_download envC6 (str "https://s/") (str "out") none fsEmpty).fs
      (str "out/r/b.tar") = none ∧
    (crawl_and_download envC6 (str "https://s/") (str "out") none fsEmpty).isOk
      = true := by
  refine ⟨?_, ?_, ?_, ?_⟩ <;> decide

/-- C7 counterexample: a 303 status does not raise, so get_page_links
succeeds and returns the parsed links, against the claim that every
non-2xx status fails. -/
theorem C7_counterexample :
    get_page_links envC7 (str "u") = ([str "h"], false) := by
  decide

/-- C7 (amended): listDirectory fails (logs the error and yields no
links) exactly on a request error or a 4xx or 5xx status; any other
returned status is treated as success, yielding every anchor href
resolved, in document order. -/
theorem C7_amended (env : CaseEnv) (u : List Char) :
    (env.page u = .err → get_page_links env u = ([], true)) ∧
    (∀ s hrefs, env.page u = .ok s hrefs →
      get_page_links env u =
        if raiseStatus s then ([], true)
        else (hrefs.map (fun h => env.resolve u h), false)) := by
  constructor
  · intro h
    simp [get_page_links, h]
  · intro s hrefs h
    simp only [get_page_links, h]

/-- C7 witness: the amended statement applied to a concrete erroring
URL and a concrete 404 response. -/
theorem C7_witness :
    envC7w.page (str "e") = PageResp.err ∧
    get_page_links envC7w (str "e") = ([], true) ∧
    get_page_links envC7w (str "s") =
      (if raiseStatus 404 then ([], true)
       else ([str "x"].map (fun h => envC7w.resolve (str "s") h), false)) :=
  ⟨by decide,
   (C7_amended envC7w (str "e")).1 (by decide),
   (C7_amended envC7w (str "s")).2 404 [str "x"] (by decide)⟩

/-- C8 counterexample: an OS write error raised while streaming one
item escapes the item boundary and aborts the whole orchestration run
instead of being converted to a counter update. -/
theorem C8_counterexample :
    (crawl_and_download envC8 (str "https://s/") (str "out") none fsEmpty).isOk
      = false := by
  decide

/-- C8 (amended): every requests-level failure is caught at the item
boundary: when no download response carries an OS write error, neither
orchestration run crashes; an OS write error is the one failure that
propagates. -/
theorem C8_amended :
    (∀ (env : CaseEnv) (base outDir : List Char) (limit : Option Nat) (fs : FS),
        CaseNoWE env → (crawl_and_download env base outDir limit fs).isOk = true) ∧
    (∀ (env : ClEnv) (fs0 : FS) (run : ClRun),
        ClNoWE env → (clMain env fs0).1 = some run → run.isOk = true) := by
  constructor
  · intro env base outDir limit fs hw
    exact crawl_ok_noWE env base outDir limit fs hw
  · intro env fs0 run hw h
    exact clMain_ok_noWE env fs0 run hw h

/-- C8 witness: the amended statement applied to environments without
write errors, one per variant. -/
theorem C8_witness :
    (crawl_and_download envC8wA (str "b") (str "o") none fsEmpty).isOk = true ∧
    ((clMain envC8wB fsEmpty).1.getD (.crash ⟨fsEmpty, 0, 0, []⟩)).isOk = true :=
  ⟨C8_amended.1 envC8wA (str "b") (str "o") none fsEmpty (fun _ => trivial),
   C8_amended.2 envC8wB fsEmpty ((clMain envC8wB fsEmpty).1.getD (.crash ⟨fsEmpty, 0, 0, []⟩))
     (fun _ => trivial) rfl⟩

/-- C9: in the object-store loop a pre-existing destination makes
download_file return True with no request, and the loop counts it in
the successful tally, exactly as a completed transfer would be
counted. -/
theorem C9_skipped_successful (env : ClEnv) (f : List Char) (rest : List (List Char))
    (st : ClState) (h : (st.fs (clOutDir ++ '/' :: basenameL f)).isSome = true) :
    cl_download_file env f clS3Base clOutDir st.fs = (.ret st.fs true, []) ∧
    clRunLoop env (f :: rest) st
      = clRunLoop env rest ⟨st.fs, st.succ + 1, st.fail, st.log ++ []⟩ := by
  have h1 : cl_download_file env f clS3Base clOutDir st.fs = (.ret st.fs true, []) := by
    simp [cl_download_file, h]
  refine ⟨h1, ?_⟩
  simp only [clRunLoop]
  rw [h1]

/-- C9 witness: the statement applied to a concrete state whose
destination for the key already exists. -/
theorem C9_witness :
    (stC9w.fs (clOutDir ++ '/' :: basenameL (str "bulk-data/x.bz2"))).isSome = true ∧
    clRunLoop envC9w [str "bulk-data/x.bz2"] stC9w
      = clRunLoop envC9w [] ⟨stC9w.fs, stC9w.succ + 1, stC9w.fail, stC9w.log ++ []⟩ :=
  ⟨by decide,
   (C9_skipped_successful envC9w (str "bulk-data/x.bz2") [] stC9w (by decide)).2⟩

/-- C10: the object-store loop requests every file from the fixed S3
base URL concatenated with the key: every download request in the run
log of main arises from a discovered key that way, whichever discovery
endpoint produced the key list. -/
theorem C10_fixed_base :
    (∀ (env : ClEnv) (f b d : List Char) (fs : FS),
        (cl_download_file env f b d fs).2 = [] ∨
        (cl_download_file env f b d fs).2 = [ClReq.download (b ++ f)]) ∧
    (∀ (env : ClEnv) (files : List (List Char)) (st : ClState) (u : List Char),
        ClReq.download u ∈ ((clRunLoop env files st).state).log →
        (∃ f, f ∈ files ∧ u = clS3Base ++ f) ∨ ClReq.download u ∈ st.log) ∧
    (∀ (env : ClEnv) (fs0 : FS) (files : List (List Char)) (u : List Char),
        (discoverFiles env).1 = some files →
        ClReq.download u ∈ (((clMain env fs0).1.getD (.ok ⟨fs0, 0, 0, []⟩)).state).log →
        ∃ f, f ∈ files ∧ u = clS3Base ++ f) := by
  refine ⟨cl_dl_log_shape, clRunLoop_log_sound, ?_⟩
  intro env fs0 files u hdisc hmem
  rcases files with _ | ⟨f, rest⟩
  · have hnone : (clMain env fs0).1 = none := by
      simp [clMain, hdisc]
    rw [hnone] at hmem
    simp [ClRun.state] at hmem
  · have hsome : (clMain env fs0).1 = some (clRunLoop env (f :: rest) ⟨fs0, 0, 0, []⟩) := by
      simp [clMain, hdisc]
    rw [hsome] at hmem
    rcases clRunLoop_log_sound env (f :: rest) ⟨fs0, 0, 0, []⟩ u hmem with h1 | h2
    · exact h1
    · simp at h2

/-- C10 witness: the statement applied to an environment in which only
the storage base endpoint (discovery method three) yields a key; the
download request still targets the S3 base URL. -/
theorem C10_witness :
    (discoverFiles envC10w).1 = some [str "bulk-data/x.bz2"] ∧
    ∃ f, f ∈ [str "bulk-data/x.bz2"] ∧
      clS3Base ++ str "bulk-data/x.bz2" = clS3Base ++ f :=
  ⟨by decide,
   C10_fixed_base.2.2 envC10w fsEmpty [str "bulk-data/x.bz2"]
     (clS3Base ++ str "bulk-data/x.bz2") (by decide) (by decide)⟩
